import Mathlib

/-!
Verification of the irmin-go streaming JSON protocol decoder and watch
subsystem, as a shallow embedding of the Go sources.

The embedding covers:
  * the Value codec (src/irmin/value.go), at the byte level;
  * the Path model (src/unnamed/part_004): ParsePath, ParseEncodedPath,
    Path.String;
  * the stream decoder CallStream (src/irmin/client.go), modelled over a
    small JSON value AST representing the parsed elements of the response
    array;
  * the Watch / WatchPath / Iter delivery goroutines (src/irmin/http.go);
  * the request-body construction of Watch and WatchPath;
  * the connection-close protocol of CallStream (sync.WaitGroup based),
    as a small labelled transition system.

Byte sequences are `List Nat` with entries understood to be below 256.
-/

namespace IrminGo

/-- Byte sequences (Go `[]byte`). -/
abbrev GoBytes := List Nat

/-- Byte list of an ASCII string literal (used for wire constants). -/
def ascii (s : String) : GoBytes := s.data.map Char.toNat

/-- Value of a hexadecimal digit byte, per Go `encoding/hex` (accepts
`0-9`, `a-f`, `A-F`). -/
def hexDigitVal (c : Nat) : Option Nat :=
  if 0x30 ≤ c ∧ c ≤ 0x39 then some (c - 0x30)
  else if 0x61 ≤ c ∧ c ≤ 0x66 then some (c - 0x61 + 10)
  else if 0x41 ≤ c ∧ c ≤ 0x46 then some (c - 0x41 + 10)
  else none

/-- Go `hex.DecodeString`: decodes pairs of hex digits to bytes; fails on
an odd-length input or a non-hex digit. -/
def hexDecode : GoBytes → Option GoBytes
  | [] => some []
  | [_] => none
  | a :: b :: rest =>
    match hexDigitVal a, hexDigitVal b, hexDecode rest with
    | some x, some y, some r => some ((16 * x + y) :: r)
    | _, _, _ => none

/-- Lowercase hex digit byte for a value below 16 (Go `%x` formatting and
`hex.EncodeToString`). -/
def hexDigitChar (n : Nat) : Nat := if n < 10 then 0x30 + n else 0x61 + (n - 10)

/-- Go `hex.EncodeToString` (and `%x`): two lowercase hex digits per byte. -/
def hexEncode (b : GoBytes) : GoBytes :=
  (b.map (fun x => [hexDigitChar (x / 16), hexDigitChar (x % 16)])).flatten

/-- Continuation byte test for UTF-8 (0x80 to 0xBF). -/
def utf8Cont (c : Nat) : Bool := 0x80 ≤ c && c ≤ 0xBF

/-- Go `utf8.Valid`: RFC 3629 validity (no overlong forms, no surrogates,
nothing above U+10FFFF). The first argument is recursion fuel; every step
consumes at least one byte, so the input length is always enough. -/
def utf8ValidF : Nat → GoBytes → Bool
  | 0, l => l.isEmpty
  | _, [] => true
  | fuel + 1, c :: rest =>
    if c < 0x80 then utf8ValidF fuel rest
    else if 0xC2 ≤ c && c ≤ 0xDF then
      match rest with
      | d :: rest2 => utf8Cont d && utf8ValidF fuel rest2
      | [] => false
    else if 0xE0 ≤ c && c ≤ 0xEF then
      match rest with
      | d :: e :: rest2 =>
        (if c = 0xE0 then 0xA0 ≤ d && d ≤ 0xBF
         else if c = 0xED then 0x80 ≤ d && d ≤ 0x9F
         else utf8Cont d) && utf8Cont e && utf8ValidF fuel rest2
      | _ => false
    else if 0xF0 ≤ c && c ≤ 0xF4 then
      match rest with
      | d :: e :: f :: rest2 =>
        (if c = 0xF0 then 0x90 ≤ d && d ≤ 0xBF
         else if c = 0xF4 then 0x80 ≤ d && d ≤ 0x8F
         else utf8Cont d) && utf8Cont e && utf8Cont f && utf8ValidF fuel rest2
      | _ => false
    else false

/-- Go `utf8.Valid` with the fuel fixed to the input length. -/
def utf8Valid (b : GoBytes) : Bool := utf8ValidF b.length b

/-- UTF-8 encoding of the replacement character U+FFFD. -/
def fffd : GoBytes := [0xEF, 0xBF, 0xBD]

/-- UTF-8 encoding of a code point (Go `utf8.EncodeRune` for valid runes). -/
def utf8EncodeNat (n : Nat) : GoBytes :=
  if n < 0x80 then [n]
  else if n < 0x800 then [0xC0 + n / 64, 0x80 + n % 64]
  else if n < 0x10000 then [0xE0 + n / 4096, 0x80 + n / 64 % 64, 0x80 + n % 64]
  else [0xF0 + n / 262144, 0x80 + n / 4096 % 64, 0x80 + n / 64 % 64, 0x80 + n % 64]

/-- Replacement of invalid UTF-8 with U+FFFD, one byte at a time, as done by
the Go JSON decoder when building a string (`utf8.DecodeRune` returning
RuneError with size 1). -/
def utf8SanitizeF : Nat → GoBytes → GoBytes
  | 0, _ => []
  | _, [] => []
  | fuel + 1, c :: rest =>
    if c < 0x80 then c :: utf8SanitizeF fuel rest
    else if 0xC2 ≤ c && c ≤ 0xDF then
      match rest with
      | d :: rest2 =>
        if utf8Cont d then c :: d :: utf8SanitizeF fuel rest2
        else fffd ++ utf8SanitizeF fuel (d :: rest2)
      | [] => fffd
    else if 0xE0 ≤ c && c ≤ 0xEF then
      match rest with
      | d :: e :: rest2 =>
        if ((if c = 0xE0 then 0xA0 ≤ d && d ≤ 0xBF
             else if c = 0xED then 0x80 ≤ d && d ≤ 0x9F
             else utf8Cont d) && utf8Cont e) then c :: d :: e :: utf8SanitizeF fuel rest2
        else fffd ++ utf8SanitizeF fuel (d :: e :: rest2)
      | [d] => fffd ++ utf8SanitizeF fuel [d]
      | [] => fffd
    else if 0xF0 ≤ c && c ≤ 0xF4 then
      match rest with
      | d :: e :: f :: rest2 =>
        if ((if c = 0xF0 then 0x90 ≤ d && d ≤ 0xBF
             else if c = 0xF4 then 0x80 ≤ d && d ≤ 0x8F
             else utf8Cont d) && utf8Cont e && utf8Cont f) then
          c :: d :: e :: f :: utf8SanitizeF fuel rest2
        else fffd ++ utf8SanitizeF fuel (d :: e :: f :: rest2)
      | [d, e] => fffd ++ utf8SanitizeF fuel [d, e]
      | [d] => fffd ++ utf8SanitizeF fuel [d]
      | [] => fffd
    else fffd ++ utf8SanitizeF fuel rest

/-- Replacement with fuel fixed to the input length, which every step
consumes at least one byte of. -/
def utf8Sanitize (b : GoBytes) : GoBytes := utf8SanitizeF b.length b

/-- JSON whitespace byte. -/
def isWS (c : Nat) : Bool := c = 0x20 || c = 0x09 || c = 0x0A || c = 0x0D

/-- Drop leading JSON whitespace. -/
def dropWS (b : GoBytes) : GoBytes := b.dropWhile isWS

/-- True when only whitespace remains. -/
def allWS (b : GoBytes) : Bool := (dropWS b).isEmpty

/-- Four hex digits of a `\u` escape, with the remaining input. -/
def parse4Hex : GoBytes → Option (Nat × GoBytes)
  | a :: b :: c :: d :: rest =>
    match hexDigitVal a, hexDigitVal b, hexDigitVal c, hexDigitVal d with
    | some w, some x, some y, some z => some (((w * 16 + x) * 16 + y) * 16 + z, rest)
    | _, _, _, _ => none
  | _ => none

/-- Value of a single-character JSON string escape. -/
def escByte (e : Nat) : Option Nat :=
  if e = 0x22 then some 0x22
  else if e = 0x5C then some 0x5C
  else if e = 0x2F then some 0x2F
  else if e = 0x62 then some 0x08
  else if e = 0x66 then some 0x0C
  else if e = 0x6E then some 0x0A
  else if e = 0x72 then some 0x0D
  else if e = 0x74 then some 0x09
  else none

/-- Body of a JSON string literal, after the opening quote: returns the
content bytes and the input after the closing quote. Escapes follow the Go
JSON decoder, including UTF-16 surrogate pairs in `\u` escapes (an unpaired
surrogate becomes U+FFFD). Raw control bytes are rejected. The first
argument is recursion fuel, at least the input length. -/
def parseStrBody : Nat → GoBytes → Option (GoBytes × GoBytes)
  | 0, _ => none
  | _, [] => none
  | fuel + 1, c :: rest =>
    if c = 0x22 then some ([], rest)
    else if c = 0x5C then
      match rest with
      | [] => none
      | e :: rest2 =>
        if e = 0x75 then
          match parse4Hex rest2 with
          | none => none
          | some (n, rest3) =>
            if 0xD800 ≤ n ∧ n ≤ 0xDBFF then
              match rest3 with
              | bs :: u :: rest4 =>
                if bs = 0x5C ∧ u = 0x75 then
                  match parse4Hex rest4 with
                  | some (m, rest5) =>
                    if 0xDC00 ≤ m ∧ m ≤ 0xDFFF then
                      (parseStrBody fuel rest5).map
                        (fun pr => (utf8EncodeNat (0x10000 + (n - 0xD800) * 0x400 + (m - 0xDC00)) ++ pr.1, pr.2))
                    else (parseStrBody fuel rest3).map (fun pr => (fffd ++ pr.1, pr.2))
                  | none => (parseStrBody fuel rest3).map (fun pr => (fffd ++ pr.1, pr.2))
                else (parseStrBody fuel rest3).map (fun pr => (fffd ++ pr.1, pr.2))
              | _ => (parseStrBody fuel rest3).map (fun pr => (fffd ++ pr.1, pr.2))
            else if 0xDC00 ≤ n ∧ n ≤ 0xDFFF then
              (parseStrBody fuel rest3).map (fun pr => (fffd ++ pr.1, pr.2))
            else (parseStrBody fuel rest3).map (fun pr => (utf8EncodeNat n ++ pr.1, pr.2))
        else
          match escByte e with
          | some bv => (parseStrBody fuel rest2).map (fun pr => (bv :: pr.1, pr.2))
          | none => none
    else if c < 0x20 then none
    else (parseStrBody fuel rest).map (fun pr => (c :: pr.1, pr.2))

/-- Does the input start with the JSON null literal followed by whitespace
only? -/
def isNullLit (b : GoBytes) : Bool :=
  match dropWS b with
  | n :: u :: l1 :: l2 :: rest =>
    n = 0x6E && u = 0x75 && l1 = 0x6C && l2 = 0x6C && allWS rest
  | _ => false

/-- Go `json.Unmarshal(b, &s)` for a string target `s`: the input must be a
single JSON string literal (or null, which is a no-op leaving the empty
string). Invalid UTF-8 inside the literal is replaced with U+FFFD. -/
def jsonUnmarshalGoString (b : GoBytes) : Option GoBytes :=
  if isNullLit b then some [] else
  match dropWS b with
  | [] => none
  | c :: rest =>
    if c = 0x22 then
      match parseStrBody (rest.length + 1) rest with
      | some (content, rest2) => if allWS rest2 then some (utf8Sanitize content) else none
      | none => none
    else none

/-- ASCII lowercase of a byte list (Go case-insensitive field matching). -/
def asciiLower (b : GoBytes) : GoBytes :=
  b.map (fun c => if 0x41 ≤ c ∧ c ≤ 0x5A then c + 32 else c)

/-- Go `json.Unmarshal(b, &h)` for `h` a struct with a single string field
`Hex`, restricted to the inputs this development meets: the JSON null
literal (no-op, empty field) and one-field objects whose value is a string
literal — exactly the shape produced by `Value.MarshalJSON`. Field names
match case-insensitively; a non-matching key leaves the field empty. -/
def jsonUnmarshalIrminHex (b : GoBytes) : Option GoBytes :=
  if isNullLit b then some [] else
  match dropWS b with
  | c :: rest =>
    if c = 0x7B then
      match dropWS rest with
      | k :: rest2 =>
        if k = 0x22 then
          match parseStrBody (rest2.length + 1) rest2 with
          | some (key, rest3) =>
            match dropWS rest3 with
            | colon :: rest4 =>
              if colon = 0x3A then
                match dropWS rest4 with
                | v :: rest5 =>
                  if v = 0x22 then
                    match parseStrBody (rest5.length + 1) rest5 with
                    | some (val, rest6) =>
                      match dropWS rest6 with
                      | close :: rest7 =>
                        if close = 0x7D ∧ allWS rest7 then
                          if asciiLower key = ascii "hex" then some (utf8Sanitize val)
                          else some []
                        else none
                      | [] => none
                    | none => none
                  else none
                | [] => none
              else none
            | [] => none
          | none => none
        else none
      | [] => none
    else none
  | [] => none

/-- Value.MarshalJSON (src/irmin/value.go): a valid UTF-8 payload becomes a
raw, unescaped JSON string; anything else becomes the object
`\x7b "hex" : "..." \x7d` with the payload in lowercase hex. -/
def valueMarshalJSON (b : GoBytes) : GoBytes :=
  if utf8Valid b then 0x22 :: (b ++ [0x22])
  else ascii "\x7b \"hex\" : \"" ++ hexEncode b ++ ascii "\" \x7d"

/-- Value.UnmarshalJSON (src/irmin/value.go): first try to read a JSON
string (then require valid UTF-8); otherwise try the hex-object form and
hex-decode its field. -/
def valueUnmarshalJSON (b : GoBytes) : Except String GoBytes :=
  match jsonUnmarshalGoString b with
  | some s => if utf8Valid s then .ok s else .error "string not valid utf8"
  | none =>
    match jsonUnmarshalIrminHex b with
    | some h =>
      match hexDecode h with
      | some v => .ok v
      | none => .error "encoding hex invalid byte"
    | none => .error "json cannot unmarshal value"

/-! ## JSON value AST

The stream decoder and the watch subsystem are modelled over parsed JSON
values: one `Json` per element of the response array. String contents are
the decoded bytes. Decode failures of Go `json.Decoder.Decode` and
`json.Unmarshal` into the concrete target types of the source become
`Except` errors of the per-type decode functions below. -/

/-- A parsed JSON value. -/
inductive Json where
  | jnull
  | jbool (b : Bool)
  | jnum (n : Int)
  | jstr (s : GoBytes)
  | jarr (elems : List Json)
  | jobj (fields : List (String × Json))

/-- Case-insensitive string equality (Go struct field matching). -/
def lcEq (a b : String) : Bool := asciiLower (ascii a) == asciiLower (ascii b)

/-- Last-wins, case-insensitive object field lookup: Go decodes object keys
in order and a later duplicate overwrites an earlier one. -/
def fieldLookup (fs : List (String × Json)) (k : String) : Option Json :=
  fs.foldl (fun acc f => if lcEq f.1 k then some f.2 else acc) none

/-- Value.UnmarshalJSON on a parsed value: a string must be valid UTF-8; an
object is tried as the internal IrminHex struct, whose `hex` field is
hex-decoded (an absent or null field leaves it empty, and the empty string
hex-decodes to no bytes); null is a no-op; everything else fails. -/
def decodeValue : Json → Except String GoBytes
  | .jstr s => if utf8Valid s then .ok s else .error "string not valid utf8"
  | .jnull => .ok []
  | .jobj fs =>
    match fieldLookup fs "hex" with
    | none => .ok []
    | some .jnull => .ok []
    | some (.jstr h) =>
      match hexDecode h with
      | some v => .ok v
      | none => .error "encoding hex invalid byte"
    | some _ => .error "json cannot unmarshal into string field"
  | _ => .error "json cannot unmarshal value"

/-- Go `json.Unmarshal` of a raw message into a plain string variable; the
raw message may be missing (zero `json.RawMessage`), which fails with an
end-of-input error; null is a no-op leaving the empty string. -/
def decodeRawString : Option Json → Except String GoBytes
  | none => .error "unexpected end of JSON input"
  | some .jnull => .ok []
  | some (.jstr s) => .ok s
  | some _ => .error "json cannot unmarshal into string"

/-- Go `json.Unmarshal` of a raw message into `[2]json.RawMessage`: JSON
array elements fill the Go array in order, extra elements are discarded and
missing elements stay zero (modelled as `none`). -/
def decodeRawArr2 : Option Json → Except String (Option Json × Option Json)
  | none => .error "unexpected end of JSON input"
  | some .jnull => .ok (none, none)
  | some (.jarr xs) => .ok (xs[0]?, xs[1]?)
  | some _ => .error "json cannot unmarshal into array"

/-- Go `json.Unmarshal` of a raw message into `[]json.RawMessage`. -/
def decodeRawList : Option Json → Except String (List Json)
  | none => .error "unexpected end of JSON input"
  | some .jnull => .ok []
  | some (.jarr xs) => .ok xs
  | some _ => .error "json cannot unmarshal into slice"

/-- Go `json.Unmarshal` of a present value into `[]json.RawMessage`. -/
def decodeRawListJ : Json → Except String (List Json)
  | .jnull => .ok []
  | .jarr xs => .ok xs
  | _ => .error "json cannot unmarshal into slice"

/-- Go `json.Unmarshal` of a present value into a plain string. -/
def decodeString : Json → Except String GoBytes
  | .jnull => .ok []
  | .jstr s => .ok s
  | _ => .error "json cannot unmarshal into string"

/-- Elementwise Value decoding of a list (Go `[]Value`); the first failing
element aborts the whole unmarshal. -/
def decodeValues : List Json → Except String (List GoBytes)
  | [] => .ok []
  | j :: rest =>
    match decodeValue j with
    | .error e => .error e
    | .ok v =>
      match decodeValues rest with
      | .error e => .error e
      | .ok vs => .ok (v :: vs)

/-- Go `json.Unmarshal` into `[]Value` (also the default decoding of the
`Path` type, a `[]Value`). -/
def decodeValueList : Json → Except String (List GoBytes)
  | .jnull => .ok []
  | .jarr xs => decodeValues xs
  | _ => .error "json cannot unmarshal into slice"

/-- Elementwise `[]Value` decoding of a list (Go `[][]Value`). -/
def decodeValueLists : List Json → Except String (List (List GoBytes))
  | [] => .ok []
  | j :: rest =>
    match decodeValueList j with
    | .error e => .error e
    | .ok v =>
      match decodeValueLists rest with
      | .error e => .error e
      | .ok vs => .ok (v :: vs)

/-- Go `json.Unmarshal` into `[][]Value` (the single-key watch payload). -/
def decodeValueListList : Json → Except String (List (List GoBytes))
  | .jnull => .ok []
  | .jarr xs => decodeValueLists xs
  | _ => .error "json cannot unmarshal into slice"

/-- Decode into the reused `streamToken` struct (one `Stream Value` field):
an absent field or a null value leaves the previous contents `prior` in
place, mirroring that CallStream declares the variable once and decodes
into it repeatedly. -/
def decodeStreamTokenUpd (j : Json) (prior : GoBytes) : Except String GoBytes :=
  match j with
  | .jnull => .ok prior
  | .jobj fs =>
    match fieldLookup fs "stream" with
    | none => .ok prior
    | some v => decodeValue v
  | _ => .error "json cannot unmarshal into struct"

/-- Decode into the `version` struct (one `Version Value` field). -/
def decodeVersion (j : Json) : Except String GoBytes :=
  match j with
  | .jnull => .ok []
  | .jobj fs =>
    match fieldLookup fs "version" with
    | none => .ok []
    | some v => decodeValue v
  | _ => .error "json cannot unmarshal into struct"

/-- One decoded unit of an open stream: `streamReply` in client.go. The
`result` field is a raw message; `none` models the zero raw message (the
field was absent), which is exactly the `len(s.Result) == 0` test. -/
structure StreamReply where
  error : GoBytes
  result : Option Json

/-- Decode into a fresh `streamReply` struct. Only the `error` field can
fail (it decodes through Value.UnmarshalJSON); `result` is stored raw. -/
def decodeStreamReply (j : Json) : Except String StreamReply :=
  match j with
  | .jnull => .ok ⟨[], none⟩
  | .jobj fs =>
    match (match fieldLookup fs "error" with
           | none => Except.ok ([] : GoBytes)
           | some v => decodeValue v) with
    | .error e => .error e
    | .ok err => .ok ⟨err, fieldLookup fs "result"⟩
  | _ => .error "json cannot unmarshal into struct"

/-! ## Stream decoder: CallStream (src/irmin/client.go) -/

/-- Result of opening a stream: a non-nil error, a nil channel together
with a nil error (the code path `return nil, err` with `err == nil`), or
the channel contents. The channel being closed after the last element is
represented by the output list ending. -/
inductive CallStreamResult where
  | err (msg : String)
  | nilNoErr
  | ok (outputs : List StreamReply)

/-- The delivery loop of the CallStream goroutine over the remaining array
elements. Each element decodes into a fresh `streamReply`; a decode error
ends the stream. When the reply has an empty result the NEXT element is
decoded into the reused `streamToken` variable (current contents `tok`):
a decode failure there (including exhaustion of the array) or a token whose
stream field equals "end" ends the stream; otherwise the empty reply is
delivered and the loop continues after the consumed token element. The
first argument holds such an empty reply whose follow-up token element is
still owed. -/
def csLoopAux : Option StreamReply → List Json → GoBytes → List StreamReply
  | _, [], _ => []
  | some s, f :: rest2, tok =>
    match decodeStreamTokenUpd f tok with
    | .error _ => []
    | .ok t2 => if t2 = ascii "end" then [] else s :: csLoopAux none rest2 t2
  | none, e :: rest, tok =>
    match decodeStreamReply e with
    | .error _ => []
    | .ok s =>
      if s.result.isNone then csLoopAux (some s) rest tok
      else s :: csLoopAux none rest tok

/-- The delivery loop, starting with no empty reply pending. -/
def csLoop (elems : List Json) (tok : GoBytes) : List StreamReply :=
  csLoopAux none elems tok

/-- CallStream over the elements of the response array (the leading `[`
token has been read; a body that is not a JSON array errors out before this
point). The first element must decode into `streamToken` with stream field
byte-equal to "start": a decode failure returns that error, while a
successful decode with the wrong contents returns a nil channel and a NIL
error. The second element decodes as the version object. The rest feeds
the delivery loop, with the reused token variable still holding "start". -/
def callStream (elems : List Json) : CallStreamResult :=
  match elems with
  | [] => .err "unexpected end of JSON input"
  | e0 :: rest =>
    match decodeStreamTokenUpd e0 [] with
    | .error msg => .err msg
    | .ok st =>
      if st = ascii "start" then
        match rest with
        | [] => .err "unexpected end of JSON input"
        | e1 :: rest2 =>
          match decodeVersion e1 with
          | .error msg => .err msg
          | .ok _ => .ok (csLoop rest2 st)
      else .nilNoErr

/-! ## Single-key watch and Iter delivery goroutines (src/irmin/http.go) -/

/-- A commit identifier with the value observed at that commit. -/
structure CommitValuePair where
  commit : GoBytes
  value : GoBytes

/-- One commit/value pair of a single-key watch message: a pair whose
length is not 2 is logged and skipped, as is a pair whose commit hex does
not decode; otherwise the decoded commit and the raw value are emitted. -/
def watchPairDecode (q : List GoBytes) : Option CommitValuePair :=
  match q with
  | [c, v] => (hexDecode c).map (fun cm => { commit := cm, value := v })
  | _ => none

/-- All pairs of one message, in order, with skips removed. -/
def watchPairs (ps : List (List GoBytes)) : List CommitValuePair :=
  ps.filterMap watchPairDecode

/-- Values delivered by the Watch goroutine before it either finishes
normally (input channel closed) or panics out of the goroutine. -/
inductive WatchOutcome where
  | ok (out : List CommitValuePair)
  | panicked (out : List CommitValuePair) (msg : String)

/-- Prepend already-delivered values to an outcome. -/
def WatchOutcome.pre (l : List CommitValuePair) : WatchOutcome → WatchOutcome
  | .ok out => .ok (l ++ out)
  | .panicked out m => .panicked (l ++ out) m

/-- One message of the Watch goroutine: the raw result is unmarshalled as
`[][]Value` — a failure there is a `panic(err)` in the source — and each
pair is then decoded independently with skips. -/
def watchMsg (m : StreamReply) : Except String (List CommitValuePair) :=
  match m.result with
  | none => .error "unexpected end of JSON input"
  | some j =>
    match decodeValueListList j with
    | .error e => .error e
    | .ok ps => .ok (watchPairs ps)

/-- The Watch goroutine over the channel contents delivered by CallStream. -/
def watchRun : List StreamReply → WatchOutcome
  | [] => .ok []
  | m :: rest =>
    match watchMsg m with
    | .error e => .panicked [] e
    | .ok out => (watchRun rest).pre out

/-- Outcome of the Iter goroutine (one Path per message). -/
inductive IterOutcome where
  | ok (out : List (List GoBytes))
  | panicked (out : List (List GoBytes)) (msg : String)

/-- Prepend already-delivered paths to an Iter outcome. -/
def IterOutcome.pre (l : List (List GoBytes)) : IterOutcome → IterOutcome
  | .ok out => .ok (l ++ out)
  | .panicked out m => .panicked (l ++ out) m

/-- One message of the Iter goroutine: the raw result is unmarshalled as a
Path; a failure is a `panic(err)` in the source. -/
def iterMsg (m : StreamReply) : Except String (List GoBytes) :=
  match m.result with
  | none => .error "unexpected end of JSON input"
  | some j => decodeValueList j

/-- The Iter goroutine over the channel contents delivered by CallStream. -/
def iterRun : List StreamReply → IterOutcome
  | [] => .ok []
  | m :: rest =>
    match iterMsg m with
    | .error e => .panicked [] e
    | .ok p => (iterRun rest).pre [p]

/-! ## Subtree watch: WatchPath (src/irmin/http.go) -/

/-- One change record of a subtree watch. -/
structure WatchPathChange where
  change : GoBytes
  key : List GoBytes

/-- The zero value of WatchPathChange (Go `make` fills the changes slice
with these before the assignment loop runs). -/
def zeroChange : WatchPathChange := { change := [], key := [] }

/-- A subtree watch commit: commit hash, ordered change records, and an
error that is only set on the final record of an aborted sequence. -/
structure WatchPathCommit where
  commit : GoBytes
  changes : List WatchPathChange
  error : Option String

/-- One `[changeKind, path]` entry: unmarshal into `[]json.RawMessage`,
require length exactly 2, then decode the change kind string and the Path. -/
def watchPathPair (pair : Json) : Except String WatchPathChange :=
  match decodeRawListJ pair with
  | .error e => .error e
  | .ok k =>
    match k with
    | [k0, k1] =>
      match decodeString k0 with
      | .error e => .error e
      | .ok ct =>
        match decodeValueList k1 with
        | .error e => .error e
        | .ok key => .ok { change := ct, key := key }
    | other =>
      .error ("Expected string/path pair array of len 2, actual len was "
        ++ toString other.length)

/-- Result of the change-assignment loop: either every entry decoded, or
the loop stopped at a failing entry with the entries assigned so far and
the count of slots still holding the zero value. -/
inductive WPLoopResult where
  | done (chs : List WatchPathChange)
  | failed (assigned : List WatchPathChange) (zeroFill : Nat) (msg : String)

/-- The change-assignment loop of the WatchPath goroutine. -/
def watchPathLoop : List Json → WPLoopResult
  | [] => .done []
  | pair :: rest =>
    match watchPathPair pair with
    | .error e => .failed [] (rest.length + 1) e
    | .ok ch =>
      match watchPathLoop rest with
      | .done chs => .done (ch :: chs)
      | .failed assigned n e => .failed (ch :: assigned) n e

/-- Per-message outcome of the WatchPath goroutine: a fatal failure emits
the partially built record with its error set and ends the sequence; an
undecodable commit hex is logged and skips the message; otherwise the full
record is delivered. -/
inductive WPMsgOutcome where
  | fatal (c : WatchPathCommit)
  | skip
  | delivered (c : WatchPathCommit)

/-- Decode one streamed message exactly as the WatchPath goroutine does:
outer `[2]json.RawMessage` shape, commit as a JSON string, then the hex
decode of the commit (failure here is `continue`, not fatal), the change
list as `[]json.RawMessage`, and finally each change pair. Fatal failures
carry the fields assigned so far. -/
def watchPathDecodeMsg (m : StreamReply) : WPMsgOutcome :=
  match decodeRawArr2 m.result with
  | .error e => .fatal { commit := [], changes := [], error := some e }
  | .ok (q0, q1) =>
    match decodeRawString q0 with
    | .error e => .fatal { commit := [], changes := [], error := some e }
    | .ok s =>
      match hexDecode s with
      | none => .skip
      | some commit =>
        match decodeRawList q1 with
        | .error e => .fatal { commit := [], changes := [], error := some e }
        | .ok changes =>
          match watchPathLoop changes with
          | .failed assigned n e =>
            .fatal { commit := commit
                     changes := assigned ++ List.replicate n zeroChange
                     error := some e }
          | .done chs => .delivered { commit := commit, changes := chs, error := none }

/-- The WatchPath goroutine over the channel contents delivered by
CallStream: a fatal message is delivered as the final record and the
output channel is closed; skipped and delivered messages keep going. -/
def watchPathRun : List StreamReply → List WatchPathCommit
  | [] => []
  | m :: rest =>
    match watchPathDecodeMsg m with
    | .fatal c => [c]
    | .skip => watchPathRun rest
    | .delivered c => c :: watchPathRun rest

/-! ## Watch request construction (src/irmin/http.go) -/

/-- What a watch opener hands to CallStream: the command suffix, the data
payload it constructs, and the post argument it actually passes. -/
structure WatchCall where
  command : String
  bodyBuilt : Option GoBytes
  bodyPassed : Option GoBytes

/-- Watch body data: `fmt.Sprintf` of `["<hex-commit>", "hei"]`. -/
def watchBodyData (commit : GoBytes) : GoBytes :=
  ascii "[\"" ++ hexEncode commit ++ ascii "\", \"hei\"]"

/-- WatchPath body data: `fmt.Sprintf` with one `%s` verb but two operands;
Go appends the unconsumed operand as a `%!(EXTRA string=...)` diagnostic. -/
def watchPathBodyData (commit : GoBytes) : GoBytes :=
  ascii "[\"" ++ hexEncode commit ++ ascii "\"]%!(EXTRA string="
    ++ hexEncode commit ++ ascii ")"

/-- Watch builds a post body when a first commit is given and passes that
same body to CallStream (`rest.CallStream(uri, body)`); with no first
commit it passes nil, making CallStream issue a plain GET. -/
def watchSetup (firstCommit : Option GoBytes) : WatchCall :=
  { command := "watch"
    bodyBuilt := firstCommit.map watchBodyData
    bodyPassed := firstCommit.map watchBodyData }

/-- WatchPath builds a post body when a first commit is given but then
calls `rest.CallStream(uri, nil)`: the built body is never passed. -/
def watchPathSetup (firstCommit : Option GoBytes) : WatchCall :=
  { command := "watch-rec"
    bodyBuilt := firstCommit.map watchPathBodyData
    bodyPassed := none }

/-! ## Path model (src/unnamed/part_004) -/

/-- Byte of the trim cutset " /" of ParsePath and ParseEncodedPath. -/
def isTrimCut (c : Nat) : Bool := c = 0x20 || c = 0x2F

/-- Go `strings.Trim(p, " /")`: drop cutset bytes from both ends. -/
def goTrim (s : GoBytes) : GoBytes :=
  ((s.dropWhile isTrimCut).reverse.dropWhile isTrimCut).reverse

/-- Go `strings.Split(s, "/")`: always at least one segment; the empty
string splits to one empty segment. -/
def goSplitSlash : GoBytes → List GoBytes
  | [] => [[]]
  | c :: rest =>
    match goSplitSlash rest with
    | [] => [[]]
    | seg :: segs => if c = 0x2F then [] :: seg :: segs else (c :: seg) :: segs

/-- ParsePath: trim, then split on the delimiter; each segment becomes an
opaque byte value. -/
def parsePath (p : GoBytes) : List GoBytes := goSplitSlash (goTrim p)

/-- Go `url.QueryUnescape`: `%xx` escapes decode to a byte and must have
two hex digits, `+` becomes a space, everything else is literal. -/
def queryUnescapeF : Nat → GoBytes → Option GoBytes
  | 0, _ => none
  | _, [] => some []
  | fuel + 1, c :: rest =>
    if c = 0x25 then
      match rest with
      | a :: b :: rest2 =>
        match hexDigitVal a, hexDigitVal b with
        | some x, some y => (queryUnescapeF fuel rest2).map (fun r => (16 * x + y) :: r)
        | _, _ => none
      | _ => none
    else if c = 0x2B then (queryUnescapeF fuel rest).map (fun r => 0x20 :: r)
    else (queryUnescapeF fuel rest).map (fun r => c :: r)

/-- Percent-decoding with fuel fixed to the input length plus one. -/
def queryUnescape (b : GoBytes) : Option GoBytes := queryUnescapeF (b.length + 1) b

/-- The unescape loop of ParseEncodedPath: the first failing segment makes
the whole parse fail (the source returns an empty path plus the error). -/
def unescapeSegs : List GoBytes → Option (List GoBytes)
  | [] => some []
  | s :: rest =>
    match queryUnescape s, unescapeSegs rest with
    | some v, some r => some (v :: r)
    | _, _ => none

/-- ParseEncodedPath: trim, split, then percent-decode every segment. -/
def parseEncodedPath (p : GoBytes) : Option (List GoBytes) :=
  unescapeSegs (goSplitSlash (goTrim p))

/-- Path.String: a delimiter before every segment; the empty path prints
as the empty string. -/
def pathString (path : List GoBytes) : GoBytes :=
  if path.length > 0 then (path.map (fun v => 0x2F :: v)).flatten else []

/-! ## Connection-close protocol of CallStream (src/irmin/client.go)

CallStream guards `res.Body.Close()` with a `sync.WaitGroup` holding one
reference for the CallStream invocation itself (released by a deferred
`Done` when it returns) and one for the decode goroutine (added before the
goroutine starts, released when it finishes); a dedicated closer goroutine
waits for the count to reach zero and then closes the body once. The
consumer holds no reference. The decode goroutine sends into a channel of
capacity 100 and blocks when the channel is full and the consumer has
stopped reading. The protocol is modelled as a labelled transition system
over the events of one opened stream (after the decode goroutine has been
added, so the count starts at two). -/

/-- Environment of one opened stream: how many values the decode goroutine
will send in total (fixed by the wire contents), and how many values the
consumer reads before abandoning the channel. -/
structure CSConfig where
  total : Nat
  maxReads : Nat
deriving DecidableEq

/-- State of the close protocol. -/
structure CSState where
  csReturned : Bool
  decDone : Bool
  closerFired : Bool
  sent : Nat
  consumed : Nat
  closed : Nat
deriving DecidableEq

/-- Initial state: neither reference released, nothing sent or closed. -/
def csInit : CSState :=
  { csReturned := false, decDone := false, closerFired := false
    sent := 0, consumed := 0, closed := 0 }

/-- The WaitGroup count: one live reference per unreleased participant. -/
def wgCount (s : CSState) : Nat :=
  (if s.csReturned then 0 else 1) + (if s.decDone then 0 else 1)

/-- Events of the close protocol. -/
inductive CSEvent where
  | csReturn
  | send
  | consume
  | decFinish
  | closeBody
deriving DecidableEq

/-- Guarded transition relation, as a partial step function: CallStream
returns once; a send needs pending output and channel space; a consume
needs a buffered value and a still-reading consumer; the decode goroutine
finishes once everything is sent; the closer fires once, only when the
WaitGroup count is zero, and performs the single `res.Body.Close()`. -/
def csStep (cfg : CSConfig) (s : CSState) : CSEvent → Option CSState
  | .csReturn =>
    if s.csReturned then none else some { s with csReturned := true }
  | .send =>
    if s.sent < cfg.total ∧ s.sent - s.consumed < 100 then
      some { s with sent := s.sent + 1 }
    else none
  | .consume =>
    if s.consumed < s.sent ∧ s.consumed < cfg.maxReads then
      some { s with consumed := s.consumed + 1 }
    else none
  | .decFinish =>
    if ¬s.decDone ∧ s.sent = cfg.total then some { s with decDone := true }
    else none
  | .closeBody =>
    if ¬s.closerFired ∧ wgCount s = 0 then
      some { s with closerFired := true, closed := s.closed + 1 }
    else none

/-- Run a sequence of events from a state; fails when any event is not
enabled. -/
def csRun (cfg : CSConfig) : CSState → List CSEvent → Option CSState
  | s, [] => some s
  | s, ev :: evs =>
    match csStep cfg s ev with
    | none => none
    | some s2 => csRun cfg s2 evs

/-- An event is enabled when its guard holds. -/
def csEnabled (cfg : CSConfig) (s : CSState) (ev : CSEvent) : Bool :=
  (csStep cfg s ev).isSome

/-- A state with no enabled event: the execution can make no progress. -/
def csStuck (cfg : CSConfig) (s : CSState) : Bool :=
  !(csEnabled cfg s .csReturn || csEnabled cfg s .send || csEnabled cfg s .consume
    || csEnabled cfg s .decFinish || csEnabled cfg s .closeBody)

/-! ## Canonical wire objects -/

/-- The stream start sentinel object. -/
def startObj : Json := .jobj [("stream", .jstr (ascii "start"))]

/-- A version announcement object. -/
def versionObj : Json := .jobj [("version", .jstr (ascii "v1"))]

/-- The stream end sentinel object. -/
def endObj : Json := .jobj [("stream", .jstr (ascii "end"))]

/-- A reply object carrying one commit/value pair for a single-key watch. -/
def sampleResult : Json := .jarr [.jarr [.jstr (ascii "ab12"), .jstr (ascii "foo")]]

/-- A well-formed reply object with a non-empty result. -/
def sampleReply : Json := .jobj [("error", .jstr []), ("result", sampleResult)]

/-! ## Stream decoder properties -/

/-- A well-formed reply element: it decodes into a fresh streamReply and
its raw result is present (non-empty). -/
def goodReply (j : Json) (s : StreamReply) : Prop :=
  decodeStreamReply j = .ok s ∧ ∃ r, s.result = some r

/-- An element whose fresh streamReply decode succeeds with an absent
result, making the loop treat it as a possible end of the stream. -/
def emptyReplyElem (j : Json) (s : StreamReply) : Prop :=
  decodeStreamReply j = .ok s ∧ s.result = none

/-- Well-formed replies at the front of the loop are delivered in order,
before whatever the rest of the elements produce. -/
theorem csLoopAux_good_append (tail : List Json) (tok : GoBytes)
    {pre : List Json} {outs : List StreamReply}
    (h : List.Forall₂ goodReply pre outs) :
    csLoopAux none (pre ++ tail) tok = outs ++ csLoopAux none tail tok := by
  induction h with
  | nil => simp
  | cons hj _ ih =>
    obtain ⟨hdec, r, hr⟩ := hj
    simp [csLoopAux, hdec, hr, ih]

/-- An empty-result element at the end of the array ends the loop. -/
theorem csLoopAux_end_of_array {e : Json} {s : StreamReply} (tok : GoBytes)
    (h : emptyReplyElem e s) : csLoopAux none [e] tok = [] := by
  obtain ⟨hdec, hr⟩ := h
  simp [csLoopAux, hdec, hr]

/-- Claim C2: for every well-formed stream — a start sentinel, a version
object, N reply objects with non-empty results and a final end-marker
element — CallStream delivers exactly the N decoded replies on the
channel, in arrival order, and then terminates normally (the channel is
closed after the last element). -/
theorem c2_theorem (e0 e1 eend : Json) (replies : List Json)
    (outs : List StreamReply) (v : GoBytes) (se : StreamReply)
    (h0 : decodeStreamTokenUpd e0 [] = .ok (ascii "start"))
    (h1 : decodeVersion e1 = .ok v)
    (hend : emptyReplyElem eend se)
    (hrep : List.Forall₂ goodReply replies outs) :
    callStream (e0 :: e1 :: (replies ++ [eend])) = .ok outs ∧
      outs.length = replies.length := by
  constructor
  · simp only [callStream, h0, h1, if_pos rfl]
    rw [csLoop, csLoopAux_good_append _ _ hrep, csLoopAux_end_of_array _ hend]
    simp
  · exact (List.Forall₂.length_eq hrep).symm

/-- Witness for C2 at a concrete stream with one reply. -/
theorem c2_witness :
    callStream [startObj, versionObj, sampleReply, endObj] =
      .ok [{ error := [], result := some sampleResult }] :=
  (c2_theorem startObj versionObj endObj [sampleReply]
    [{ error := [], result := some sampleResult }] (ascii "v1")
    { error := [], result := none } rfl rfl ⟨rfl, rfl⟩
    (List.Forall₂.cons ⟨rfl, sampleResult, rfl⟩ List.Forall₂.nil)).1

/-- Counterexample for claim C4: when the first array element decodes but
its stream field is "nope" rather than "start", CallStream returns a nil
channel together with a NIL error — stream opening fails, but no framing
error (no error value at all) is returned to the caller. -/
theorem c4_counterexample :
    callStream [Json.jobj [("stream", Json.jstr (ascii "nope"))], versionObj]
      = CallStreamResult.nilNoErr := rfl

/-- Claim C4, amended: if the first array element is absent, fails to
decode as the stream token, or decodes with a stream field other than
"start", then stream opening fails and zero output values are produced —
but the failure is reported as a non-nil error only when the decode itself
failed; a successful decode with the wrong contents returns a nil channel
and a nil error. -/
theorem c4_theorem (e : Json) (rest : List Json)
    (h : decodeStreamTokenUpd e [] ≠ .ok (ascii "start")) :
    (∀ outs, callStream (e :: rest) ≠ .ok outs) ∧
    (∀ msg, decodeStreamTokenUpd e [] = .error msg →
      callStream (e :: rest) = .err msg) ∧
    (∀ st, decodeStreamTokenUpd e [] = .ok st →
      callStream (e :: rest) = .nilNoErr) ∧
    (∀ outs, callStream [] ≠ .ok outs) := by
  rcases hd : decodeStreamTokenUpd e [] with msg | st
  · refine ⟨?_, ?_, ?_, ?_⟩
    · intro outs
      simp [callStream, hd]
    · intro m hm
      cases hm
      simp [callStream, hd]
    · intro st hst
      simp at hst
    · intro outs
      simp [callStream]
  · have hne : st ≠ ascii "start" := by
      intro he
      exact h (he ▸ hd)
    refine ⟨?_, ?_, ?_, ?_⟩
    · intro outs
      simp [callStream, hd, hne]
    · intro m hm
      simp at hm
    · intro st2 hst
      cases hst
      simp [callStream, hd, hne]
    · intro outs
      simp [callStream]

/-- Witness for C4 at the concrete mismatching first element. -/
theorem c4_witness :
    callStream [Json.jobj [("stream", Json.jstr (ascii "bad"))]]
      = CallStreamResult.nilNoErr :=
  (c4_theorem (Json.jobj [("stream", Json.jstr (ascii "bad"))]) []
    (by intro hc; exact absurd (Except.ok.inj hc) (by decide))).2.2.1
    (ascii "bad") rfl

/-- Counterexample for claim C5: the claim says an empty-result reply is
itself reinterpreted as a stream-control object, and that a stream field
equal to "end" terminates the sequence with nothing more delivered. In the
code the empty-result element is NOT examined for its stream field: the
NEXT element is decoded as the token instead. Here the end-marker element
(empty result, stream field "end") is followed by an ordinary reply, so
the loop reads that reply as the token, finds no stream field, and then
DELIVERS the empty reply as an ordinary output value — instead of
terminating with zero outputs as the claim requires. -/
theorem c5_counterexample :
    callStream [startObj, versionObj, endObj, sampleReply] =
      .ok [{ error := [], result := none }] := rfl

/-- Claim C5, amended: a reply object with an empty result makes the
decoder read the FOLLOWING array element into the reused stream token: if
there is no following element, or its token decode fails, or the decoded
token has stream field "end", the sequence terminates normally; otherwise
the empty-result reply itself is delivered as an ordinary output value,
the following element is consumed as the token, and the loop continues. -/
theorem c5_theorem (e0 e1 : Json) (v : GoBytes) (pre : List Json)
    (outs : List StreamReply)
    (h0 : decodeStreamTokenUpd e0 [] = .ok (ascii "start"))
    (h1 : decodeVersion e1 = .ok v)
    (hpre : List.Forall₂ goodReply pre outs)
    (e : Json) (s : StreamReply) (he : emptyReplyElem e s) :
    (callStream (e0 :: e1 :: (pre ++ [e])) = .ok outs) ∧
    (∀ f rest msg, decodeStreamTokenUpd f (ascii "start") = .error msg →
      callStream (e0 :: e1 :: (pre ++ e :: f :: rest)) = .ok outs) ∧
    (∀ f rest, decodeStreamTokenUpd f (ascii "start") = .ok (ascii "end") →
      callStream (e0 :: e1 :: (pre ++ e :: f :: rest)) = .ok outs) ∧
    (∀ f rest t2, decodeStreamTokenUpd f (ascii "start") = .ok t2 →
      t2 ≠ ascii "end" →
      callStream (e0 :: e1 :: (pre ++ e :: f :: rest)) =
        .ok (outs ++ s :: csLoop rest t2)) := by
  obtain ⟨hdec, hres⟩ := he
  refine ⟨?_, ?_, ?_, ?_⟩
  · simp only [callStream, h0, h1, if_pos rfl]
    rw [csLoop, csLoopAux_good_append _ _ hpre]
    simp [csLoopAux, hdec, hres]
  · intro f rest msg hf
    simp only [callStream, h0, h1, if_pos rfl]
    rw [csLoop, csLoopAux_good_append _ _ hpre]
    simp [csLoopAux, hdec, hres, hf]
  · intro f rest hf
    simp only [callStream, h0, h1, if_pos rfl]
    rw [csLoop, csLoopAux_good_append _ _ hpre]
    simp [csLoopAux, hdec, hres, hf]
  · intro f rest t2 hf hne
    simp only [callStream, h0, h1, if_pos rfl]
    rw [csLoop, csLoopAux_good_append _ _ hpre]
    simp [csLoopAux, hdec, hres, hf, hne, csLoop]

/-- Witness for C5 at the concrete stream of the counterexample, through
the delivered-and-continue branch of the amended claim. -/
theorem c5_witness :
    callStream [startObj, versionObj, endObj, sampleReply] =
      .ok ([] ++ { error := [], result := none } :: csLoop [] (ascii "start")) :=
  (c5_theorem startObj versionObj (ascii "v1") [] [] rfl rfl List.Forall₂.nil
    endObj { error := [], result := none } ⟨rfl, rfl⟩).2.2.2
    sampleReply [] (ascii "start") rfl (by decide)

/-! ## Subtree watch properties -/

/-- A streamed message that the WatchPath goroutine fully decodes and
delivers as the record c. -/
def wpDelivered (m : StreamReply) (c : WatchPathCommit) : Prop :=
  watchPathDecodeMsg m = .delivered c

/-- Delivered messages at the front of the input are emitted in order
before the rest of the input is processed. -/
theorem watchPathRun_append {goods : List StreamReply}
    {recs : List WatchPathCommit} (h : List.Forall₂ wpDelivered goods recs)
    (tail : List StreamReply) :
    watchPathRun (goods ++ tail) = recs ++ watchPathRun tail := by
  induction h with
  | nil => simp
  | @cons m c goods2 recs2 hm htail ih =>
    have hm2 : watchPathDecodeMsg m = .delivered c := hm
    simp [watchPathRun, hm2, ih]

/-- Every fatal outcome of the per-message decode carries an error, stated
as an invariant over the outcome. -/
theorem watchPathDecodeMsg_fatal_invariant (m : StreamReply) :
    (match watchPathDecodeMsg m with
     | .fatal c => c.error ≠ none
     | _ => True) := by
  unfold watchPathDecodeMsg
  rcases h1 : decodeRawArr2 m.result with e1 | ⟨q0, q1⟩ <;> simp only [h1]
  · simp
  · rcases h2 : decodeRawString q0 with e2 | s <;> simp only [h2]
    · simp
    · rcases h3 : hexDecode s with _ | commit <;> simp only [h3]
      all_goals try simp
      rcases h4 : decodeRawList q1 with e4 | changes <;> simp only [h4]
      all_goals try simp
      rcases h5 : watchPathLoop changes with chs | ⟨assigned, n, e5⟩ <;>
        simp [h5]

/-- Every fatal outcome of the per-message decode carries an error. -/
theorem watchPathDecodeMsg_fatal_error {m : StreamReply} {c : WatchPathCommit}
    (h : watchPathDecodeMsg m = .fatal c) : c.error ≠ none := by
  have hinv := watchPathDecodeMsg_fatal_invariant m
  rw [h] at hinv
  exact hinv

/-- Counterexample for claim C1: the claim states that a decode failure of
the commit hex string is fatal — the partially built record is delivered
with its error set and the sequence ends. In the code a commit string that
is valid JSON but undecodable hex is logged and the whole message SKIPPED
(`continue`): here the first message has commit "zz", no error record is
emitted, the sequence continues, and the following valid message is still
delivered. -/
theorem c1_counterexample :
    watchPathDecodeMsg { error := [], result := some (.jarr [.jstr (ascii "zz"), .jarr []]) }
        = .skip ∧
    watchPathRun
      [{ error := [], result := some (.jarr [.jstr (ascii "zz"), .jarr []]) },
       { error := [], result := some (.jarr [.jstr (ascii "ab12"),
          .jarr [.jarr [.jstr (ascii "+"), .jarr [.jstr (ascii "a")]]]]) }] =
      [{ commit := [0xAB, 0x12]
         changes := [{ change := ascii "+", key := [ascii "a"] }]
         error := none }] :=
  ⟨rfl, rfl⟩

/-- Claim C1, amended: after any run of fully delivered messages, a decode
failure at the outer pair shape, at the JSON decode of the commit string,
at the change-list shape, or at an individual change-kind/path pair is
fatal: the partially built record is delivered as the final output with
its error field set and the sequence ends, regardless of what follows on
the wire. A commit string that decodes as JSON but is not valid hex is
NOT fatal: the message is logged and skipped and the sequence continues. -/
theorem c1_theorem (goods : List StreamReply) (recs : List WatchPathCommit)
    (h : List.Forall₂ wpDelivered goods recs) :
    (∀ m c tail, watchPathDecodeMsg m = .fatal c →
      watchPathRun (goods ++ m :: tail) = recs ++ [c] ∧ c.error ≠ none) ∧
    (∀ m tail, watchPathDecodeMsg m = .skip →
      watchPathRun (goods ++ m :: tail) = recs ++ watchPathRun tail) := by
  constructor
  · intro m c tail hm
    refine ⟨?_, watchPathDecodeMsg_fatal_error hm⟩
    rw [watchPathRun_append h]
    simp [watchPathRun, hm]
  · intro m tail hm
    rw [watchPathRun_append h]
    simp [watchPathRun, hm]

/-- Witness for C1: one delivered message, then a message whose change
list has a one-element pair at index 0 — fatal — then a valid message
that is never processed. -/
theorem c1_witness :
    watchPathRun
      [{ error := [], result := some (.jarr [.jstr (ascii "ab12"),
          .jarr [.jarr [.jstr (ascii "+"), .jarr [.jstr (ascii "a")]]]]) },
       { error := [], result := some (.jarr [.jstr (ascii "cd"),
          .jarr [.jarr [.jstr (ascii "+")]]]) },
       { error := [], result := some (.jarr [.jstr (ascii "ab12"), .jarr []]) }] =
      [{ commit := [0xAB, 0x12]
         changes := [{ change := ascii "+", key := [ascii "a"] }]
         error := none },
       { commit := [0xCD]
         changes := [zeroChange]
         error := some "Expected string/path pair array of len 2, actual len was 1" }] ∧
    some "Expected string/path pair array of len 2, actual len was 1" ≠
      (none : Option String) :=
  (c1_theorem
    [{ error := [], result := some (.jarr [.jstr (ascii "ab12"),
        .jarr [.jarr [.jstr (ascii "+"), .jarr [.jstr (ascii "a")]]]]) }]
    [{ commit := [0xAB, 0x12]
       changes := [{ change := ascii "+", key := [ascii "a"] }]
       error := none }]
    (List.Forall₂.cons rfl List.Forall₂.nil)).1
    { error := [], result := some (.jarr [.jstr (ascii "cd"),
        .jarr [.jarr [.jstr (ascii "+")]]]) }
    { commit := [0xCD]
      changes := [zeroChange]
      error := some "Expected string/path pair array of len 2, actual len was 1" }
    [{ error := [], result := some (.jarr [.jstr (ascii "ab12"), .jarr []]) }]
    rfl

/-! ## Single-key watch properties -/

/-- The length of a filterMap over a list on which the function never
fails. -/
theorem filterMap_length_of_isSome {α β : Type} (f : α → Option β) :
    ∀ l : List α, (∀ q ∈ l, (f q).isSome) → (l.filterMap f).length = l.length := by
  intro l
  induction l with
  | nil => intro _; rfl
  | cons q rest ih =>
    intro hall
    have hq := hall q (List.mem_cons_self q rest)
    rcases hv : f q with _ | v
    · rw [hv] at hq
      simp at hq
    · rw [List.filterMap_cons, hv]
      simp only [List.length_cons]
      rw [ih (fun x hx => hall x (List.mem_cons_of_mem q hx))]

/-- Claim C3: a single-key watch message whose pairs all decode except one
(undecodable commit hex, or wrong pair length) yields exactly K-1 output
values for its K pairs, in order; the sequence is not terminated and the
remaining messages are still processed. Watches share no state, so this
per-watch property holds independently for every open watch. -/
theorem c3_theorem (a b : List (List GoBytes)) (bad : List GoBytes)
    (ha : ∀ q ∈ a, (watchPairDecode q).isSome)
    (hb : ∀ q ∈ b, (watchPairDecode q).isSome)
    (hbad : watchPairDecode bad = none)
    (m : StreamReply) (j : Json) (hm : m.result = some j)
    (hj : decodeValueListList j = .ok (a ++ bad :: b))
    (rest : List StreamReply) :
    watchMsg m = .ok (watchPairs (a ++ bad :: b)) ∧
    (watchPairs (a ++ bad :: b)).length + 1 = (a ++ bad :: b).length ∧
    watchRun (m :: rest) = (watchRun rest).pre (watchPairs (a ++ bad :: b)) := by
  refine ⟨?_, ?_, ?_⟩
  · simp [watchMsg, hm, hj]
  · unfold watchPairs
    rw [List.filterMap_append, List.filterMap_cons, hbad]
    simp [List.length_append, filterMap_length_of_isSome watchPairDecode a ha,
      filterMap_length_of_isSome watchPairDecode b hb]
    omega
  · simp [watchRun, watchMsg, hm, hj]

/-- Witness for C3 at a message with K = 3 pairs whose middle pair has the
undecodable commit hex "zz": exactly 2 values come out and a following
message is still delivered. -/
theorem c3_witness :
    watchMsg { error := [], result := some (.jarr
        [.jarr [.jstr (ascii "ab"), .jstr (ascii "x")],
         .jarr [.jstr (ascii "zz"), .jstr (ascii "y")],
         .jarr [.jstr (ascii "cd"), .jstr (ascii "z")]]) } =
      .ok (watchPairs [[ascii "ab", ascii "x"], [ascii "zz", ascii "y"],
        [ascii "cd", ascii "z"]]) ∧
    (watchPairs [[ascii "ab", ascii "x"], [ascii "zz", ascii "y"],
      [ascii "cd", ascii "z"]]).length + 1 = 3 ∧
    watchRun [{ error := [], result := some (.jarr
        [.jarr [.jstr (ascii "ab"), .jstr (ascii "x")],
         .jarr [.jstr (ascii "zz"), .jstr (ascii "y")],
         .jarr [.jstr (ascii "cd"), .jstr (ascii "z")]]) }] =
      (watchRun []).pre (watchPairs [[ascii "ab", ascii "x"],
        [ascii "zz", ascii "y"], [ascii "cd", ascii "z"]]) :=
  c3_theorem [[ascii "ab", ascii "x"]] [[ascii "cd", ascii "z"]]
    [ascii "zz", ascii "y"]
    (by decide) (by decide) rfl
    { error := [], result := some (.jarr
        [.jarr [.jstr (ascii "ab"), .jstr (ascii "x")],
         .jarr [.jstr (ascii "zz"), .jstr (ascii "y")],
         .jarr [.jstr (ascii "cd"), .jstr (ascii "z")]]) }
    (.jarr [.jarr [.jstr (ascii "ab"), .jstr (ascii "x")],
         .jarr [.jstr (ascii "zz"), .jstr (ascii "y")],
         .jarr [.jstr (ascii "cd"), .jstr (ascii "z")]])
    rfl rfl []

/-! ## Background-task abort behavior (claim C6) -/

/-- Claim C6 evaluated at a failing input: a streamed message whose result
is the number 5 does not unmarshal as the expected payload shape; the
Watch and Iter delivery goroutines then execute `panic(err)` (marked in
the source with a TODO to return the error to the caller instead), so the
decode failure DOES propagate as an uncaught abort out of the background
task, with nothing delivered. -/
theorem c6_theorem :
    watchRun [{ error := [], result := some (.jnum 5) }] =
      .panicked [] "json cannot unmarshal into slice" ∧
    iterRun [{ error := [], result := some (.jnum 5) }] =
      .panicked [] "json cannot unmarshal into slice" :=
  ⟨rfl, rfl⟩

/-! ## Watch request bodies (claim C9) -/

/-- Claim C9 evaluated at the resume commit 0xab12: Watch passes the body
whose data is `["ab12", "hei"]` to CallStream and passes no body without a
resume commit, as claimed; but WatchPath passes NO body to CallStream even
though a resume commit was supplied — the body it builds (whose data is
malformed by a stray Sprintf operand) is discarded. -/
theorem c9_theorem :
    (watchSetup (some [0xAB, 0x12])).bodyPassed =
      some (ascii "[\"ab12\", \"hei\"]") ∧
    (watchSetup none).bodyPassed = none ∧
    (watchPathSetup (some [0xAB, 0x12])).bodyPassed = none ∧
    (watchPathSetup (some [0xAB, 0x12])).bodyBuilt =
      some (ascii "[\"ab12\"]%!(EXTRA string=ab12)") :=
  ⟨rfl, rfl, rfl, rfl⟩

/-! ## Path parser properties (claim C10) -/

/-- Splitting never yields an empty segment list. -/
theorem goSplitSlash_ne_nil : ∀ l : GoBytes, goSplitSlash l ≠ [] := by
  intro l
  induction l with
  | nil => simp [goSplitSlash]
  | cons c rest ih =>
    unfold goSplitSlash
    rcases h : goSplitSlash rest with _ | ⟨seg, segs⟩
    · exact absurd h ih
    · simp only [h]
      split <;> simp

/-- Percent-decoding the segments preserves their number. -/
theorem unescapeSegs_length :
    ∀ (l : List GoBytes) (r : List GoBytes), unescapeSegs l = some r →
      r.length = l.length := by
  intro l
  induction l with
  | nil =>
    intro r hr
    cases hr
    rfl
  | cons sg rest ih =>
    intro r hr
    unfold unescapeSegs at hr
    rcases h1 : queryUnescape sg with _ | v <;> rw [h1] at hr
    · cases hr
    · rcases h2 : unescapeSegs rest with _ | vs <;> rw [h2] at hr
      · cases hr
      · cases hr
        simp [ih vs h2]

/-- Claim C10: an input that trims to empty under space-slash trimming
parses (by both parsers) to a path with exactly one empty segment, whose
String form is "/"; and no parser input ever yields the zero-length root
path (for ParseEncodedPath: no successful parse does). -/
theorem c10_theorem (s : GoBytes) (h : goTrim s = []) :
    parsePath s = [[]] ∧ pathString (parsePath s) = [0x2F] ∧
    parseEncodedPath s = some [[]] ∧
    (∀ t : GoBytes, 1 ≤ (parsePath t).length) ∧
    (∀ (t : GoBytes) (r : List GoBytes), parseEncodedPath t = some r →
      1 ≤ r.length) := by
  have hp : parsePath s = [[]] := by
    simp [parsePath, h, goSplitSlash]
  refine ⟨hp, ?_, ?_, ?_, ?_⟩
  · rw [hp]
    decide
  · unfold parseEncodedPath
    rw [h]
    rfl
  · intro t
    have := goSplitSlash_ne_nil (goTrim t)
    have hlen := List.length_pos.mpr this
    simpa [parsePath] using hlen
  · intro t r hr
    unfold parseEncodedPath at hr
    have hlen := unescapeSegs_length _ _ hr
    have := goSplitSlash_ne_nil (goTrim t)
    have h2 := List.length_pos.mpr this
    omega

/-- Witness for C10 at the input "/". -/
theorem c10_witness :
    parsePath [0x2F] = [[]] ∧ pathString (parsePath [0x2F]) = [0x2F] ∧
      parseEncodedPath [0x2F] = some [[]] :=
  ⟨(c10_theorem [0x2F] (by decide)).1, (c10_theorem [0x2F] (by decide)).2.1,
    (c10_theorem [0x2F] (by decide)).2.2.1⟩

/-! ## Close-protocol properties (claim C7) -/

/-- Invariant of the close protocol: the body has been closed exactly as
many times as the closer has fired, and the closer fires only after both
references were released. -/
def csInv (s : CSState) : Prop :=
  s.closed = (if s.closerFired then 1 else 0) ∧
    (s.closerFired = true → s.csReturned = true ∧ s.decDone = true)

/-- Every step preserves the close-protocol invariant. -/
theorem csStep_inv {cfg : CSConfig} {s s2 : CSState} {ev : CSEvent}
    (h : csStep cfg s ev = some s2) (hi : csInv s) : csInv s2 := by
  obtain ⟨hc, hf⟩ := hi
  cases ev <;> simp only [csStep] at h
  · split at h
    · cases h
    · cases h
      exact ⟨hc, fun hff => ⟨rfl, (hf hff).2⟩⟩
  · split at h
    · cases h
      exact ⟨hc, hf⟩
    · cases h
  · split at h
    · cases h
      exact ⟨hc, hf⟩
    · cases h
  · split at h
    · cases h
      exact ⟨hc, fun hff => ⟨(hf hff).1, rfl⟩⟩
    · cases h
  · split at h
    · rename_i hguard
      cases h
      have hw : wgCount s = 0 := hguard.2
      have hcr : s.csReturned = true := by
        by_contra hx
        simp [wgCount, Bool.eq_false_iff.mpr hx] at hw
      have hdd : s.decDone = true := by
        by_contra hx
        simp [wgCount, Bool.eq_false_iff.mpr hx] at hw
      have hcf : s.closerFired = false := Bool.eq_false_iff.mpr hguard.1
      constructor
      · simp [hc, hcf]
      · intro _
        exact ⟨hcr, hdd⟩
    · cases h

/-- Runs from an invariant state end in an invariant state. -/
theorem csRun_inv {cfg : CSConfig} :
    ∀ (evs : List CSEvent) (s s2 : CSState), csInv s →
      csRun cfg s evs = some s2 → csInv s2 := by
  intro evs
  induction evs with
  | nil =>
    intro s s2 hi h
    cases h
    exact hi
  | cons ev rest ih =>
    intro s s2 hi h
    unfold csRun at h
    rcases hs : csStep cfg s ev with _ | smid <;> rw [hs] at h
    · cases h
    · exact ih smid s2 (csStep_inv hs hi) h

/-- Counterexample for claim C7: the claim says the connection is closed
exactly once regardless of whether the consumer stops reading first, with
a reference count over decoder and consumer preventing a leak when the
consumer abandons the sequence early. In the code the consumer holds no
reference: with 101 pending values and a consumer that abandons without
reading, CallStream returns, the decoder fills the 100-slot channel and
blocks on the 101st send forever; the run below reaches a state where no
event is enabled any more and the body has been closed zero times — the
connection is leaked, never closed. -/
theorem c7_counterexample :
    csRun { total := 101, maxReads := 0 } csInit
        (CSEvent.csReturn :: List.replicate 100 CSEvent.send) =
      some { csReturned := true, decDone := false, closerFired := false
             sent := 100, consumed := 0, closed := 0 } ∧
    csStuck { total := 101, maxReads := 0 }
      { csReturned := true, decDone := false, closerFired := false
        sent := 100, consumed := 0, closed := 0 } = true :=
  ⟨by decide, by decide⟩

/-- Claim C7, amended: in every reachable state of the close protocol the
body has been closed at most once; a close implies both the CallStream
invocation and the decode goroutine — not the consumer — released their
reference; and every maximal (stuck) state in which the decode goroutine
has finished has the body closed exactly once. When the decode goroutine
never finishes (consumer abandonment with a full channel), the body can
remain unclosed forever. -/
theorem c7_theorem (cfg : CSConfig) (evs : List CSEvent) (s : CSState)
    (h : csRun cfg csInit evs = some s) :
    s.closed ≤ 1 ∧ (s.closed = 1 ↔ s.closerFired = true) ∧
    (s.closerFired = true → s.csReturned = true ∧ s.decDone = true) ∧
    (csStuck cfg s = true → s.decDone = true → s.closed = 1) := by
  have hinit : csInv csInit := by
    constructor <;> simp [csInit]
  have hi := csRun_inv evs csInit s hinit h
  obtain ⟨hc, hf⟩ := hi
  refine ⟨?_, ?_, hf, ?_⟩
  · rw [hc]
    split <;> omega
  · rw [hc]
    constructor
    · intro h1
      by_contra hx
      simp [Bool.eq_false_iff.mpr hx] at h1
    · intro h1
      simp [h1]
  · intro hstuck hdec
    by_cases hff : s.closerFired = true
    · simp [hc, hff]
    · exfalso
      have hcr : s.csReturned = true := by
        by_contra hx
        have hen : csEnabled cfg s .csReturn = true := by
          simp [csEnabled, csStep, Bool.eq_false_iff.mpr hx]
        simp [csStuck, hen] at hstuck
      have hen : csEnabled cfg s .closeBody = true := by
        simp [csEnabled, csStep, hff, wgCount, hcr, hdec]
      simp [csStuck, hen] at hstuck

/-- Witness for C7 applying the amended claim to the empty run. -/
theorem c7_witness :
    csInit.closed ≤ 1 ∧ (csInit.closed = 1 ↔ csInit.closerFired = true) ∧
    (csInit.closerFired = true → csInit.csReturned = true ∧ csInit.decDone = true) ∧
    (csStuck { total := 0, maxReads := 0 } csInit = true →
      csInit.decDone = true → csInit.closed = 1) :=
  c7_theorem { total := 0, maxReads := 0 } [] csInit rfl

/-! ## Value codec round-trip (claim C8) -/

/-- A byte a JSON string literal can carry verbatim: not the quote, not
the backslash, not a control byte. -/
def cleanByte (x : Nat) : Prop := x ≠ 0x22 ∧ x ≠ 0x5C ∧ 0x20 ≤ x

instance (x : Nat) : Decidable (cleanByte x) := by
  unfold cleanByte
  infer_instance

/-- A run of the validity scan on the empty list accepts. -/
theorem utf8ValidF_nil : ∀ fv : Nat, utf8ValidF fv [] = true := by
  intro fv
  cases fv <;> rfl

/-- A run of the replacement scan on the empty list yields the empty list. -/
theorem utf8SanitizeF_nil : ∀ f : Nat, utf8SanitizeF f [] = [] := by
  intro f
  cases f <;> rfl

set_option maxHeartbeats 1000000 in
/-- Valid UTF-8 passes through the replacement scan unchanged. -/
theorem utf8SanitizeF_valid :
    ∀ (fuel fv : Nat) (b : GoBytes), b.length ≤ fuel → b.length ≤ fv →
      utf8ValidF fv b = true → utf8SanitizeF fuel b = b := by
  intro fuel
  induction fuel with
  | zero =>
    intro fv b hlen _ _
    have hb : b = [] := List.length_eq_zero.mp (Nat.le_zero.mp hlen)
    subst hb
    rfl
  | succ f ih =>
    intro fv b hlen hlv hv
    cases b with
    | nil => rfl
    | cons c rest =>
      cases fv with
      | zero => simp at hlv
      | succ f2 =>
        simp only [List.length_cons] at hlen hlv
        rcases rest with _ | ⟨d, _ | ⟨e, _ | ⟨g, rest3⟩⟩⟩ <;>
          simp only [utf8ValidF, utf8ValidF_nil, utf8SanitizeF_nil] at hv <;>
          simp only [utf8SanitizeF, utf8SanitizeF_nil] <;>
          split_ifs at hv ⊢ <;>
          simp_all <;>
          exact ih f2 _
            (by first | omega | (simp only [List.length_cons, List.length_nil]; omega))
            (by first | omega | (simp only [List.length_cons, List.length_nil]; omega))
            (by simp_all)

/-- Valid UTF-8 passes through `utf8Sanitize` unchanged. -/
theorem utf8Sanitize_valid {b : GoBytes} (hv : utf8Valid b = true) :
    utf8Sanitize b = b :=
  utf8SanitizeF_valid b.length b.length b le_rfl le_rfl hv

/-- A list of bytes below 0x80 passes the validity scan. -/
theorem utf8ValidF_ascii : ∀ (fuel : Nat) (b : GoBytes), b.length ≤ fuel →
    (∀ x ∈ b, x < 0x80) → utf8ValidF fuel b = true := by
  intro fuel
  induction fuel with
  | zero =>
    intro b hlen _
    have hb : b = [] := List.length_eq_zero.mp (Nat.le_zero.mp hlen)
    subst hb
    rfl
  | succ f ih =>
    intro b hlen hall
    cases b with
    | nil => rfl
    | cons c rest =>
      have hc := hall c (List.mem_cons_self c rest)
      rcases rest with _ | ⟨d, rest1⟩
      · simp only [utf8ValidF]
        rw [if_pos hc]
        exact utf8ValidF_nil f
      · simp only [utf8ValidF]
        rw [if_pos hc]
        refine ih (d :: rest1) ?_ (fun x hx => hall x (List.mem_cons_of_mem c hx))
        simp only [List.length_cons] at hlen ⊢
        omega

/-- A list of bytes below 0x80 is valid UTF-8. -/
theorem utf8Valid_ascii (b : GoBytes) (h : ∀ x ∈ b, x < 0x80) :
    utf8Valid b = true :=
  utf8ValidF_ascii b.length b le_rfl h

/-- Opening a string at a closing quote yields the empty content. -/
theorem parseStrBody_quote (f : Nat) (l : GoBytes) :
    parseStrBody (f + 1) (0x22 :: l) = some ([], l) := rfl

/-- One clean byte of string content is consumed verbatim. -/
theorem parseStrBody_cons_clean (f : Nat) (c : Nat) (l : GoBytes)
    (h : cleanByte c) :
    parseStrBody (f + 1) (c :: l) =
      (parseStrBody f l).map (fun pr => (c :: pr.1, pr.2)) := by
  obtain ⟨hq, hbs, hctl⟩ := h
  simp only [parseStrBody]
  rw [if_neg hq, if_neg hbs, if_neg (Nat.not_lt.mpr hctl)]

/-- Scanning a clean byte run inside a string literal reaches the closing
quote and returns the run verbatim. -/
theorem parseStrBody_clean :
    ∀ (b : GoBytes) (fuel : Nat) (rest : GoBytes), b.length + 1 ≤ fuel →
      (∀ x ∈ b, cleanByte x) →
      parseStrBody fuel (b ++ 0x22 :: rest) = some (b, rest) := by
  intro b
  induction b with
  | nil =>
    intro fuel rest hfuel _
    cases fuel with
    | zero => omega
    | succ f => exact parseStrBody_quote f rest
  | cons c b2 ih =>
    intro fuel rest hfuel hclean
    cases fuel with
    | zero => omega
    | succ f =>
      have hcc := hclean c (List.mem_cons_self c b2)
      have hf : b2.length + 1 ≤ f := by
        simp only [List.length_cons] at hfuel
        omega
      have hrec := ih f rest hf (fun x hx => hclean x (List.mem_cons_of_mem c hx))
      calc parseStrBody (f + 1) ((c :: b2) ++ 0x22 :: rest)
          = parseStrBody (f + 1) (c :: (b2 ++ 0x22 :: rest)) := rfl
        _ = (parseStrBody f (b2 ++ 0x22 :: rest)).map
              (fun pr => (c :: pr.1, pr.2)) := parseStrBody_cons_clean f c _ hcc
        _ = some (c :: b2, rest) := by rw [hrec]; rfl

/-- Hex digits are produced for values below 16 and read back exactly. -/
theorem hexDigitVal_hexDigitChar : ∀ n < 16, hexDigitVal (hexDigitChar n) = some n := by
  decide

/-- Hex encoding of bytes reads back to the original bytes. -/
theorem hexDecode_hexEncode : ∀ b : GoBytes, (∀ x ∈ b, x < 256) →
    hexDecode (hexEncode b) = some b := by
  intro b
  induction b with
  | nil => intro _; rfl
  | cons x rest ih =>
    intro hall
    have hx := hall x (List.mem_cons_self x rest)
    have h1 : x / 16 < 16 := by omega
    have h2 : x % 16 < 16 := by omega
    have hrest := ih (fun y hy => hall y (List.mem_cons_of_mem x hy))
    have henc : hexEncode (x :: rest) =
        hexDigitChar (x / 16) :: hexDigitChar (x % 16) :: hexEncode rest := by
      simp [hexEncode]
    rw [henc]
    simp only [hexDecode, hexDigitVal_hexDigitChar _ h1,
      hexDigitVal_hexDigitChar _ h2, hrest]
    have : 16 * (x / 16) + x % 16 = x := by omega
    rw [this]

/-- Bytes emitted by the hex encoder are clean ASCII. -/
theorem hexEncode_bytes : ∀ b : GoBytes, (∀ y ∈ b, y < 256) → ∀ x ∈ hexEncode b,
    cleanByte x ∧ x < 0x80 := by
  intro b
  induction b with
  | nil =>
    intro _ x hx
    simp [hexEncode] at hx
  | cons c rest ih =>
    intro hall x hx
    have hc := hall c (List.mem_cons_self c rest)
    have henc : hexEncode (c :: rest) =
        hexDigitChar (c / 16) :: hexDigitChar (c % 16) :: hexEncode rest := by
      simp [hexEncode]
    rw [henc] at hx
    simp only [List.mem_cons] at hx
    rcases hx with hx | hx | hx
    · subst hx
      unfold hexDigitChar cleanByte
      split <;> omega
    · subst hx
      unfold hexDigitChar cleanByte
      split <;> omega
    · exact ih (fun y hy => hall y (List.mem_cons_of_mem c hy)) x hx

/-- Whitespace-drop step lemmas for the byte-level parsers. -/
theorem dropWS_cons_neg {c : Nat} (l : GoBytes) (h : isWS c = false) :
    dropWS (c :: l) = c :: l := by
  simp [dropWS, List.dropWhile_cons, h]

theorem dropWS_cons_pos {c : Nat} (l : GoBytes) (h : isWS c = true) :
    dropWS (c :: l) = dropWS l := by
  simp [dropWS, List.dropWhile_cons, h]

theorem isNullLit_head {c : Nat} (l : GoBytes) (hws : isWS c = false)
    (hn : c ≠ 0x6E) : isNullLit (c :: l) = false := by
  unfold isNullLit
  rw [dropWS_cons_neg l hws]
  rcases l with _ | ⟨u, _ | ⟨l1, _ | ⟨l2, rest⟩⟩⟩ <;> simp [hn]

theorem value_roundtrip_string (b : GoBytes) (hval : utf8Valid b = true)
    (hclean : ∀ x ∈ b, cleanByte x) :
    valueUnmarshalJSON (valueMarshalJSON b) = .ok b := by
  have hm : valueMarshalJSON b = 0x22 :: (b ++ [0x22]) := by
    simp [valueMarshalJSON, hval]
  rw [hm]
  have hnull : isNullLit (0x22 :: (b ++ [0x22])) = false :=
    isNullLit_head _ (by decide) (by decide)
  have hscan : parseStrBody ((b ++ [0x22]).length + 1) (b ++ [0x22]) = some (b, []) := by
    have h2 : (b ++ [0x22] : GoBytes) = b ++ 0x22 :: [] := rfl
    rw [h2]
    refine parseStrBody_clean b _ [] ?_ hclean
    simp [List.length_append]
  have hstr : jsonUnmarshalGoString (0x22 :: (b ++ [0x22])) = some b := by
    unfold jsonUnmarshalGoString
    rw [hnull]
    simp only [Bool.false_eq_true, if_false]
    rw [dropWS_cons_neg _ (by decide)]
    simp only [hscan, allWS, dropWS, List.dropWhile_nil, List.isEmpty_nil, if_pos rfl]
    simp [utf8Sanitize_valid hval]
  unfold valueUnmarshalJSON
  rw [hstr]
  simp [hval]

theorem value_roundtrip_hex (b : GoBytes) (hb : ∀ x ∈ b, x < 256)
    (hval : utf8Valid b = false) :
    valueUnmarshalJSON (valueMarshalJSON b) = .ok b := by
  have hm : valueMarshalJSON b =
      0x7B :: 0x20 :: 0x22 :: ((ascii "hex") ++ 0x22 :: 0x20 :: 0x3A :: 0x20 :: 0x22 ::
        (hexEncode b ++ 0x22 :: [0x20, 0x7D])) := by
    simp [valueMarshalJSON, hval, ascii]
  have hhexclean : ∀ x ∈ hexEncode b, cleanByte x :=
    fun x hx => (hexEncode_bytes b hb x hx).1
  have hkey : parseStrBody (((ascii "hex") ++ 0x22 :: 0x20 :: 0x3A :: 0x20 :: 0x22 ::
        (hexEncode b ++ 0x22 :: [0x20, 0x7D])).length + 1)
      ((ascii "hex") ++ 0x22 :: 0x20 :: 0x3A :: 0x20 :: 0x22 ::
        (hexEncode b ++ 0x22 :: [0x20, 0x7D])) =
      some (ascii "hex", 0x20 :: 0x3A :: 0x20 :: 0x22 ::
        (hexEncode b ++ 0x22 :: [0x20, 0x7D])) := by
    refine parseStrBody_clean (ascii "hex") _ _ ?_ (by decide)
    simp [List.length_append, ascii]
  have hvalscan : parseStrBody ((hexEncode b ++ 0x22 :: [0x20, 0x7D]).length + 1)
      (hexEncode b ++ 0x22 :: [0x20, 0x7D]) = some (hexEncode b, [0x20, 0x7D]) := by
    refine parseStrBody_clean (hexEncode b) _ _ ?_ hhexclean
    simp [List.length_append]
  have hsan : utf8Sanitize (hexEncode b) = hexEncode b :=
    utf8Sanitize_valid (utf8Valid_ascii _ (fun x hx => (hexEncode_bytes b hb x hx).2))
  rw [hm]
  have hnull : isNullLit (0x7B :: 0x20 :: 0x22 :: ((ascii "hex") ++ 0x22 :: 0x20 ::
      0x3A :: 0x20 :: 0x22 :: (hexEncode b ++ 0x22 :: [0x20, 0x7D]))) = false :=
    isNullLit_head _ (by decide) (by decide)
  have hstr : jsonUnmarshalGoString (0x7B :: 0x20 :: 0x22 :: ((ascii "hex") ++ 0x22 ::
      0x20 :: 0x3A :: 0x20 :: 0x22 :: (hexEncode b ++ 0x22 :: [0x20, 0x7D]))) = none := by
    unfold jsonUnmarshalGoString
    rw [hnull]
    simp only [Bool.false_eq_true, if_false]
    rw [dropWS_cons_neg _ (by decide)]
    simp
  have hhex : jsonUnmarshalIrminHex (0x7B :: 0x20 :: 0x22 :: ((ascii "hex") ++ 0x22 ::
      0x20 :: 0x3A :: 0x20 :: 0x22 :: (hexEncode b ++ 0x22 :: [0x20, 0x7D]))) =
      some (hexEncode b) := by
    unfold jsonUnmarshalIrminHex
    rw [hnull]
    simp only [Bool.false_eq_true, if_false]
    rw [dropWS_cons_neg _ (by decide)]
    simp only [if_pos rfl, dropWS_cons_pos _ (by decide : isWS 0x20 = true),
      dropWS_cons_neg _ (by decide : isWS 0x22 = false)]
    simp only [if_pos rfl, hkey]
    simp only [dropWS_cons_pos _ (by decide : isWS 0x20 = true),
      dropWS_cons_neg _ (by decide : isWS 0x3A = false)]
    simp only [dropWS_cons_pos _ (by decide : isWS 0x20 = true),
      dropWS_cons_neg _ (by decide : isWS 0x22 = false)]
    simp only [if_pos rfl, hvalscan]
    simp only [dropWS_cons_pos _ (by decide : isWS 0x20 = true),
      dropWS_cons_neg _ (by decide : isWS 0x7D = false)]
    simp [hsan]
    exact ⟨by decide, fun hcon => absurd (by decide) hcon⟩
  unfold valueUnmarshalJSON
  simp [hstr, hhex, hexDecode_hexEncode b hb]

/-- Counterexample for claim C8: the byte sequence consisting of one
double-quote byte is valid UTF-8, so the claim requires the string
round-trip to return it; but MarshalJSON emits the bytes verbatim with no
escaping, producing the invalid JSON text of three quote bytes, and
UnmarshalJSON rejects it. -/
theorem c8_counterexample :
    utf8Valid [0x22] = true ∧
    valueUnmarshalJSON (valueMarshalJSON [0x22]) =
      .error "json cannot unmarshal value" :=
  ⟨rfl, rfl⟩

/-- Claim C8, amended: for every byte sequence b, if b is valid UTF-8 AND
contains no quote, backslash or control byte (below 0x20) — MarshalJSON
performs no escaping, so such bytes break the emitted JSON — the string
form decodes back to exactly b; if b is not valid UTF-8, the hex-object
form decodes back to exactly b. -/
theorem c8_theorem (b : GoBytes) (hb : ∀ x ∈ b, x < 256) :
    (utf8Valid b = true → (∀ x ∈ b, x ≠ 0x22 ∧ x ≠ 0x5C ∧ 0x20 ≤ x) →
      valueUnmarshalJSON (valueMarshalJSON b) = .ok b) ∧
    (utf8Valid b = false → valueUnmarshalJSON (valueMarshalJSON b) = .ok b) :=
  ⟨fun hv hc => value_roundtrip_string b hv hc,
   fun hv => value_roundtrip_hex b hb hv⟩

/-- Witness for C8 at the UTF-8 payload "foo" and the non-UTF-8 payload
0xff00. -/
theorem c8_witness :
    valueUnmarshalJSON (valueMarshalJSON (ascii "foo")) = .ok (ascii "foo") ∧
    valueUnmarshalJSON (valueMarshalJSON [0xFF, 0x00]) = .ok [0xFF, 0x00] :=
  ⟨(c8_theorem (ascii "foo") (by decide)).1 (by decide) (by decide),
   (c8_theorem [0xFF, 0x00] (by decide)).2 (by decide)⟩

end IrminGo
